import Mathlib

/-!
Verification of `ftp-delta-neutral.py`.

A shallow embedding of the reconciliation-and-transfer script
`src/ftp-delta-neutral.py` (functions `get_s3_file_names`, `get_ftp_to_s3`,
`unzip_s3_files`), together with proofs and refutations of the specification
claims about it.

Python strings are embedded as Lean `String` (in this toolchain a structure
wrapping `List Char`), byte sequences as `List Nat`, Python `set` values as
`Finset String`, and raised exceptions as `Except` / explicit error components.
Python slicing (`x[a:b]`, `x[-4:]`, `x[7:-3]`) is embedded with `List.take` /
`List.drop` on the character list, matching Python's clamping semantics
(natural-number subtraction truncates at 0 exactly as Python clamps negative
stop indices to 0).
-/

namespace DeltaNeutral

/-- Byte sequences (file contents) are lists of byte values. -/
abbrev Bytes := List Nat

/-- Exceptions raised by the plain Python operations embedded here:
`KeyError` from `resp_s3_objects['Contents']` and `IndexError` from
`x.split('/')[1]`. -/
inductive PyError where
  | keyError
  | indexError
deriving DecidableEq

/-! Section: Python string primitives -/

/-- Python `str.split(sep)` for a one-character separator, on the character
list: always returns a nonempty list of (possibly empty) chunks;
`''.split(sep) == ['']`. -/
def pySplitCore (sep : Char) : List Char → List (List Char)
  | [] => [[]]
  | c :: cs =>
    if c = sep then
      [] :: pySplitCore sep cs
    else
      match pySplitCore sep cs with
      | [] => [[c]]
      | chunk :: rest => (c :: chunk) :: rest

/-- Python `x.split(sep)` on strings. -/
def pySplit (sep : Char) (x : String) : List String :=
  (pySplitCore sep x.data).map String.mk

/-- Python list indexing `l[i]` for a nonnegative index: raises `IndexError`
when the index is out of range. -/
def pyIndex {α : Type} (l : List α) (i : Nat) : Except PyError α :=
  match l.get? i with
  | some a => Except.ok a
  | none => Except.error PyError.indexError

/-- Python `x.endswith(c)` for a single character. -/
def pyEndsWith (x : String) (c : Char) : Bool :=
  match x.data.getLast? with
  | some d => d = c
  | none => false

/-- Python `x.startswith(p)`. -/
def pyStartsWith (x p : String) : Bool :=
  p.data.isPrefixOf x.data

/-- Python `x[-4:]`: the last four characters (the whole string when it is
shorter). -/
def pyLast4 (x : String) : String :=
  String.mk (x.data.drop (x.data.length - 4))

/-- Python `x[7:8]`: the character at index 7 as a (possibly empty) string. -/
def pySlice7to8 (x : String) : String :=
  String.mk ((x.data.take 8).drop 7)

/-- Python `x[7:-3]`: characters from index 7 up to three before the end
(empty when the string is too short, as in Python after clamping). -/
def pySlice7toM3 (x : String) : String :=
  String.mk ((x.data.take (x.data.length - 3)).drop 7)

/-! Section: `get_s3_file_names` (src lines 99–140)

The boto3 `list_objects` response is external input; the S3 API omits the
`Contents` key entirely when the bucket holds no objects, so the response's
`Contents` field is embedded as `Option (List String)` (`none` = key absent,
`some keys` = the listed object keys). The function body embeds lines
116–140: read `resp['Contents']` (a `KeyError` when absent), keep keys not
ending in `'/'`, optionally keep keys starting with the folder name, and map
each key to `x.split('/')[1]` (an `IndexError` when the key has no `'/'`).
A raised exception is the `Except.error` result. -/

/-- The per-key transform of src line 138: `x.split('/')[1]`. -/
def shortName (x : String) : Except PyError String :=
  pyIndex (pySplit '/' x) 1

/-- `get_s3_file_names(in_bucket, in_folder)` given the listing response's
`Contents` field for `in_bucket`. -/
def get_s3_file_names (contents : Option (List String))
    (in_folder : Option String) : Except PyError (List String) :=
  match contents with
  | none => Except.error PyError.keyError
  | some ls_s3_object_key =>
    let ls_s3_files := ls_s3_object_key.filter (fun x => !(pyEndsWith x '/'))
    let ls_s3_filtered :=
      match in_folder with
      | some f => ls_s3_files.filter (fun x => pyStartsWith x f)
      | none => ls_s3_files
    ls_s3_filtered.mapM shortName

/-! Section: Name classification and the transfer queue (src lines 188–219) -/

/-- Src line 188: `[x for x in ls_ftp_contents if x[-4:] == '.zip']`. -/
def ls_ftp_zip_files (ls_ftp_contents : List String) : List String :=
  ls_ftp_contents.filter (fun x => pyLast4 x == ".zip")

/-- Src line 202: `[x for x in ls_ftp_zip_files if x[7:8] != '_']`. -/
def ls_ftp_daily_files (zips : List String) : List String :=
  zips.filter (fun x => !(pySlice7to8 x == "_"))

/-- The daily-file classification applied to a remote listing: the zip-name
filter of line 188 followed by the daily filter of line 202. -/
def classifyDaily (ls_ftp_contents : List String) : List String :=
  ls_ftp_daily_files (ls_ftp_zip_files ls_ftp_contents)

/-- Src line 216: `set(ls_ftp_daily_files) - set(ls_s3_file_names)`, the
transfer work queue as a set. -/
def ls_get_ftp_to_s3 (lsDaily lsS3 : List String) : Finset String :=
  lsDaily.toFinset \ lsS3.toFinset

/-! Section: The stage-1 transfer loop (src lines 222–243)

The FTP retrieval (`retrbinary` plus the local file write), the S3 upload
(`upload_file`) and the local cleanup (`os.remove`) are external effects; the
environment records, per file name, whether each succeeds and what bytes the
retrieval yields. The loop body has no `try`/`except`, so the first raised
exception unwinds the loop; the loop result is the list of uploads performed
(key–bytes pairs appended to the S3 state) together with the exception, if
any, that ended the run. -/

structure FtpEnv where
  /-- `ftp_site.retrbinary(f"RETR {name}", ...)`: `some bytes` on success,
  `none` when retrieval raises. -/
  retrieve : String → Option Bytes
  /-- Whether `s3_client.upload_file(name, in_bucket, in_folder + name)`
  succeeds; a failed upload creates no object. -/
  uploadOk : String → Bool
  /-- Whether `os.remove(name)` succeeds. -/
  removeOk : String → Bool

/-- The exception that ends a stage-1 run. -/
inductive TransferError where
  | retrieveFailed (name : String)
  | uploadFailed (name : String)
  | removeFailed (name : String)
deriving DecidableEq

/-- The `for each_file in ls_get_ftp_to_s3` loop of src lines 228–243:
retrieve, upload to key `in_folder + each_file`, remove the local copy —
in that order, aborting at the first failure. Returns the final S3 staging
state and the exception, if any, that ended the loop. -/
def transferLoop (env : FtpEnv) (in_folder : String) :
    List String → List (String × Bytes) → List (String × Bytes) × Option TransferError
  | [], s3 => (s3, none)
  | each_file :: rest, s3 =>
    match env.retrieve each_file with
    | none => (s3, some (TransferError.retrieveFailed each_file))
    | some bytes =>
      if env.uploadOk each_file then
        let s3' := s3 ++ [(in_folder ++ each_file, bytes)]
        if env.removeOk each_file then
          transferLoop env in_folder rest s3'
        else
          (s3', some (TransferError.removeFailed each_file))
      else
        (s3, some (TransferError.uploadFailed each_file))

/-! Section: `unzip_s3_files` (src lines 251–312) -/

/-- Src line 275: `[x for x in ls_s3_unzip_daily if x.startswith('options_')]`. -/
def ls_options_unzip (ls_s3_unzip_daily : List String) : List String :=
  ls_s3_unzip_daily.filter (fun x => pyStartsWith x "options_")

/-- Src line 276, the reverse naming transform: `f'L2{x[7:-3]}zip'`. -/
def reverseTransform (x : String) : String :=
  "L2" ++ pySlice7toM3 x ++ "zip"

/-- Src line 276 applied to the conforming expanded names. -/
def ls_conform_unzip (ls_s3_unzip_daily : List String) : List String :=
  (ls_options_unzip ls_s3_unzip_daily).map reverseTransform

/-- Src line 279: `set(ls_s3_zip_daily) - set(ls_conform_unzip)`, the queue of
staged archives still to expand. -/
def pendingExpansion (ls_s3_zip_daily ls_s3_unzip_daily : List String) : Finset String :=
  ls_s3_zip_daily.toFinset \ (ls_conform_unzip ls_s3_unzip_daily).toFinset

/-- A zip archive, once parsed: its member entries `(name, decompressed bytes)`
in the archive's internal order; `z.namelist()` is the list of first
components in that order. -/
abbrev ZipMembers := List (String × Bytes)

/-- CPython's `ZipFile.open(name)` resolves a *name* through the
`NameToInfo` dictionary, which is built by iterating the central directory and
therefore holds, for each name, the *last* member entry bearing it. `zOpen`
returns that member's bytes (`none` when no member has the name, which cannot
happen for a name drawn from `namelist()`). -/
def zOpen (name : String) : ZipMembers → Option Bytes
  | [] => none
  | m :: rest =>
    match zOpen name rest with
    | some b => some b
    | none => if m.1 == name then some m.2 else none

/-- The inner loop of src lines 299–305: for each name in `z.namelist()`,
upload the bytes of `z.open(name)` to key `in_unzipfolder + name`, in namelist
order. -/
def publishMembers (in_unzipfolder : String) (members : ZipMembers) :
    List (String × Bytes) :=
  (members.map Prod.fst).map
    (fun each_unzip_filename =>
      (in_unzipfolder ++ each_unzip_filename,
       (zOpen each_unzip_filename members).getD []))

/-- The exception that ends a stage-2 run: `zipfile.BadZipFile` raised by
`zipfile.ZipFile(buffer)` on bytes that are not a valid archive. -/
inductive UnzipError where
  | badZipFile (name : String)
deriving DecidableEq

/-- The `for each_zipfile in ls_diff_unzip` loop of src lines 291–307.
`getObject key` is the blob store's download (`zip_obj.get()["Body"].read()`),
and `parseZip` is `zipfile.ZipFile` on a byte buffer — `none` when the bytes
are not a valid zip archive, in which case the raised `BadZipFile` is uncaught
(there is no `try`/`except` in the loop) and unwinds the whole loop. Returns
the list of objects published so far and the exception, if any, that ended the
loop. -/
def unzipLoop (parseZip : Bytes → Option ZipMembers) (getObject : String → Bytes)
    (in_zipfolder in_unzipfolder : String) :
    List String → List (String × Bytes) → List (String × Bytes) × Option UnzipError
  | [], published => (published, none)
  | each_zipfile :: rest, published =>
    match parseZip (getObject (in_zipfolder ++ each_zipfile)) with
    | none => (published, some (UnzipError.badZipFile each_zipfile))
    | some members =>
      unzipLoop parseZip getObject in_zipfolder in_unzipfolder rest
        (published ++ publishMembers in_unzipfolder members)

/-! Section: helper lemmas -/

theorem data_append (a b : String) : (a ++ b).data = a.data ++ b.data := rfl

theorem data_mk (l : List Char) : (String.mk l).data = l := rfl

theorem pySplitCore_ne_nil (sep : Char) (l : List Char) : pySplitCore sep l ≠ [] := by
  cases l with
  | nil => simp [pySplitCore]
  | cons c cs =>
    simp only [pySplitCore]
    split
    · simp
    · split <;> simp

theorem pySplitCore_of_not_mem (sep : Char) (l : List Char) (h : sep ∉ l) :
    pySplitCore sep l = [l] := by
  induction l with
  | nil => rfl
  | cons c cs ih =>
    have hc : ¬ c = sep := fun he => h (he ▸ List.mem_cons_self c cs)
    have hcs : sep ∉ cs := fun hm => h (List.mem_cons_of_mem c hm)
    simp only [pySplitCore, if_neg hc, ih hcs]

theorem pySplitCore_append (sep : Char) (l₁ l₂ : List Char) (h : sep ∉ l₁) :
    pySplitCore sep (l₁ ++ sep :: l₂) = l₁ :: pySplitCore sep l₂ := by
  induction l₁ with
  | nil => simp [pySplitCore]
  | cons c cs ih =>
    have hc : ¬ c = sep := fun he => h (he ▸ List.mem_cons_self c cs)
    have hcs : sep ∉ cs := fun hm => h (List.mem_cons_of_mem c hm)
    simp only [List.cons_append, pySplitCore, if_neg hc, List.append_eq]
    rw [ih hcs]

/-- `zOpen` finds nothing when no member bears the name. -/
theorem zOpen_eq_none (name : String) (members : ZipMembers)
    (h : name ∉ members.map Prod.fst) : zOpen name members = none := by
  induction members with
  | nil => rfl
  | cons m rest ih =>
    have hm : ¬ m.1 = name := by
      intro he; exact h (by simp [he])
    have hrest : name ∉ rest.map Prod.fst := fun hmem => h (by simp [hmem])
    simp [zOpen, ih hrest, beq_eq_false_iff_ne.mpr hm]

/-- With pairwise-distinct member names, reopening a member by its name
recovers that member's own bytes. -/
theorem zOpen_eq_of_nodup (members : ZipMembers)
    (hnodup : (members.map Prod.fst).Nodup) :
    ∀ m ∈ members, zOpen m.1 members = some m.2 := by
  induction members with
  | nil => intro m hm; cases hm
  | cons m₀ rest ih =>
    intro m hm
    rw [List.map_cons, List.nodup_cons] at hnodup
    have hnotin : m₀.1 ∉ rest.map Prod.fst := hnodup.1
    have hrest : (rest.map Prod.fst).Nodup := hnodup.2
    rcases List.mem_cons.mp hm with he | hmem
    · subst he
      simp [zOpen, zOpen_eq_none m.1 rest hnotin]
    · have := ih hrest m hmem
      simp [zOpen, this]

/-- With pairwise-distinct member names, the publish loop uploads, for each
member in order, exactly that member's bytes under its own name. -/
theorem publishMembers_of_nodup (in_unzipfolder : String) (members : ZipMembers)
    (hnodup : (members.map Prod.fst).Nodup) :
    publishMembers in_unzipfolder members
      = members.map (fun m => (in_unzipfolder ++ m.1, m.2)) := by
  unfold publishMembers
  rw [List.map_map]
  apply List.map_congr_left
  intro m hm
  simp only [Function.comp]
  rw [zOpen_eq_of_nodup members hnodup m hm]
  rfl

/-- Slicing `x[7:-3]` over a list shaped `pre ++ mid ++ post` with a 7-element
head and a 3-element tail extracts exactly `mid`. -/
theorem slice7M3_core (pre mid post : List Char) (hpre : pre.length = 7)
    (hpost : post.length = 3) :
    ((pre ++ mid ++ post).take ((pre ++ mid ++ post).length - 3)).drop 7 = mid := by
  have h1 : (pre ++ mid ++ post).length - 3 = 7 + mid.length := by
    rw [List.length_append, List.length_append, hpre, hpost]
    omega
  rw [h1, List.append_assoc, List.take_append_eq_append_take]
  rw [List.take_of_length_le (by omega : pre.length ≤ 7 + mid.length), hpre]
  rw [(by omega : 7 + mid.length - 7 = mid.length), List.take_left]
  rw [List.drop_append_eq_append_drop]
  rw [List.drop_eq_nil_of_le (by omega : pre.length ≤ 7), hpre]
  simp

/-! Section: claim C2 — the reverse naming transform round-trip -/

/-- Claim C2 is false as stated: the reverse transform maps the derived member
name `options_20200115` to `L2_20200zip`, which is neither `L2_20200115.zip`
nor `L220200115.zip`, so the round-trip fails at suffix `20200115`. -/
theorem c2_reverse_roundtrip_cex :
    reverseTransform "options_20200115" = "L2_20200zip"
    ∧ ("L2_20200zip" == "L2_20200115.zip") = false
    ∧ ("L2_20200zip" == "L220200115.zip") = false := by
  refine ⟨by decide, by decide, by decide⟩

/-- Claim C2 (amended): the reverse transform assumes expanded member names
carry a dot and a 3-character extension. For every suffix `s` and every
3-character extension `e`, the member name `options<s>.<e>` maps back to the
archive name `L2<s>.zip`; in particular `options_20200115.csv` maps back to
`L2_20200115.zip`. -/
theorem c2_reverse_roundtrip_ext (s e : String) (h : e.data.length = 3) :
    reverseTransform ("options" ++ s ++ "." ++ e) = "L2" ++ s ++ ".zip" := by
  apply String.ext
  have hx : ("options" ++ s ++ "." ++ e).data
      = "options".data ++ (s.data ++ ['.']) ++ e.data := by
    simp only [data_append, List.append_assoc]
  have hslice : (pySlice7toM3 ("options" ++ s ++ "." ++ e)).data
      = s.data ++ ['.'] := by
    rw [pySlice7toM3, data_mk, hx]
    exact slice7M3_core "options".data (s.data ++ ['.']) e.data rfl h
  show ("L2".data ++ (pySlice7toM3 ("options" ++ s ++ "." ++ e)).data)
        ++ "zip".data
      = ("L2".data ++ s.data) ++ ".zip".data
  rw [hslice]
  simp only [List.append_assoc, List.singleton_append]

/-- Witness for C2 (amended) at suffix `_20200115` and extension `csv`. -/
theorem c2_reverse_roundtrip_ext_wit :
    reverseTransform "options_20200115.csv" = "L2_20200115.zip" :=
  c2_reverse_roundtrip_ext "_20200115" "csv" rfl

/-! Section: claim C3 — `pendingExpansion` -/

/-- Claim C3 is false as stated: with the extensionless expanded name
`options_20200115` present, `pendingExpansion` still returns the archive
(its reverse transform yields `L2_20200zip`, not `L2_20200115.zip`), so the
claimed result `{}` is wrong. -/
theorem c3_pendingExpansion_cex :
    decide (pendingExpansion ["L2_20200115.zip"] ["options_20200115"]
      = (∅ : Finset String)) = false := by
  decide

/-- Claim C3 (amended): `pendingExpansion({"L2_20200115.zip"}, {})` returns
`{"L2_20200115.zip"}`; an expanded name only represents its archive when it
carries a 3-character extension: with `options_20200115.csv` the result is
`{}`, while with the extensionless `options_20200115` the archive is still
returned. -/
theorem c3_pendingExpansion_amended :
    pendingExpansion ["L2_20200115.zip"] [] = {"L2_20200115.zip"}
    ∧ pendingExpansion ["L2_20200115.zip"] ["options_20200115.csv"]
        = (∅ : Finset String)
    ∧ pendingExpansion ["L2_20200115.zip"] ["options_20200115"]
        = {"L2_20200115.zip"} := by
  refine ⟨by decide, by decide, by decide⟩

/-! Section: claim C4 — the transfer work queue is a set difference -/

/-- Claim C4: for all finite name collections `A` (remote daily files) and `B`
(already staged), the computed transfer work queue is exactly the set
difference `A - B` by exact name match, and `missing(A, A)` is empty, so a
re-run after full synchronization transfers nothing. -/
theorem c4_missing_set_difference :
    (∀ (A B : List String) (x : String),
        x ∈ ls_get_ftp_to_s3 A B ↔ x ∈ A ∧ x ∉ B)
    ∧ (∀ A : List String, ls_get_ftp_to_s3 A A = ∅) := by
  constructor
  · intro A B x
    simp [ls_get_ftp_to_s3]
  · intro A
    simp [ls_get_ftp_to_s3]

/-! Section: claim C5 — daily-file classification -/

/-- Claim C5: the classification keeps exactly the names without the separator
at the fixed offset — applied to the two example names it returns exactly the
daily one, and a name with `'_'` at index 7 (a monthly name) is never
selected, whatever the listing. -/
theorem c5_classifyDaily_daily_only :
    classifyDaily ["L2_2020_January.zip", "L2_20200115.zip"] = ["L2_20200115.zip"]
    ∧ ∀ (names : List String) (x : String),
        pySlice7to8 x = "_" → x ∉ classifyDaily names := by
  constructor
  · decide
  · intro names x h hx
    simp only [classifyDaily, ls_ftp_daily_files] at hx
    have hx2 := (List.mem_filter.mp hx).2
    rw [h] at hx2
    simp at hx2

/-- Witness for C5 at the example listing: the monthly name is not selected. -/
theorem c5_classifyDaily_daily_only_wit :
    classifyDaily ["L2_2020_January.zip", "L2_20200115.zip"] = ["L2_20200115.zip"]
    ∧ decide ("L2_2020_January.zip"
        ∈ classifyDaily ["L2_2020_January.zip", "L2_20200115.zip"]) = false :=
  ⟨c5_classifyDaily_daily_only.1,
   decide_eq_false
     (c5_classifyDaily_daily_only.2 ["L2_2020_January.zip", "L2_20200115.zip"]
       "L2_2020_January.zip" (by decide))⟩

/-! Section: claim C9 — `get_s3_file_names` on an empty listing -/

/-- Claim C9: when the listing response carries no object entries (the
`Contents` key is absent, as the S3 API does for an empty area),
`get_s3_file_names` does not return an empty list: it fails with the
missing-key error, whatever the folder argument. -/
theorem c9_empty_listing_keyError :
    ∀ in_folder : Option String,
      get_s3_file_names none in_folder = Except.error PyError.keyError := by
  intro in_folder
  rfl

/-! Section: claim C6 — stage-1 transfer failures are fatal -/

/-- Claim C6: a retrieval or upload failure for a file in the stage-1 loop
ends the run there: the loop result carries the corresponding error, the
staging state holds exactly the uploads of the files before it (each staged
under `in_folder ++ name` with its retrieved bytes), and neither the failing
file nor any later file contributes an upload. -/
theorem c6_transfer_failure_fatal
    (env : FtpEnv) (in_folder : String) (pre : List String) (f : String)
    (post : List String) (s3 : List (String × Bytes))
    (hpre : ∀ g ∈ pre,
      (env.retrieve g).isSome = true ∧ env.uploadOk g = true ∧ env.removeOk g = true)
    (hf : env.retrieve f = none ∨ env.uploadOk f = false) :
    transferLoop env in_folder (pre ++ f :: post) s3
      = (s3 ++ pre.map (fun g => (in_folder ++ g, (env.retrieve g).getD [])),
         some (match env.retrieve f with
               | none => TransferError.retrieveFailed f
               | some _ => TransferError.uploadFailed f)) := by
  induction pre generalizing s3 with
  | nil =>
    rcases hf with h | h
    · simp [transferLoop, h]
    · cases hr : env.retrieve f with
      | none => simp [transferLoop, hr]
      | some b => simp [transferLoop, hr, h]
  | cons g rest ih =>
    obtain ⟨hg1, hg2, hg3⟩ := hpre g (List.mem_cons_self g rest)
    obtain ⟨b, hb⟩ := Option.isSome_iff_exists.mp hg1
    have ih' := ih (s3 ++ [(in_folder ++ g, b)])
        (fun g' hg' => hpre g' (List.mem_cons_of_mem g hg'))
    simp only [List.cons_append, transferLoop, hb, hg2, hg3, if_true, List.append_eq]
    rw [ih']
    simp [hb, List.append_assoc]

/-- An environment in which only `bad.zip` fails (its retrieval raises);
every other file retrieves bytes `[1]`, uploads and cleans up fine. -/
def cexFtpEnv : FtpEnv where
  retrieve := fun f => if f == "bad.zip" then none else some [1]
  uploadOk := fun _ => true
  removeOk := fun _ => true

/-- Witness for C6: in the queue `[L2_20200101.zip, bad.zip, L2_20200103.zip]`
the run ends at `bad.zip` with only the first file staged. -/
theorem c6_transfer_failure_fatal_wit :
    transferLoop cexFtpEnv "zip_daily_files/"
        (["L2_20200101.zip"] ++ "bad.zip" :: ["L2_20200103.zip"]) []
      = ([("zip_daily_files/L2_20200101.zip", [1])],
         some (TransferError.retrieveFailed "bad.zip")) :=
  (c6_transfer_failure_fatal cexFtpEnv "zip_daily_files/" ["L2_20200101.zip"]
      "bad.zip" ["L2_20200103.zip"] [] (by decide) (by decide)).trans (by decide)

/-! Section: claim C7 — cleanup failure after a successful upload -/

/-- An environment in which every retrieval and upload succeeds but every
local-copy deletion fails. -/
def cexCleanupEnv : FtpEnv where
  retrieve := fun _ => some [2]
  uploadOk := fun _ => true
  removeOk := fun _ => false

/-- Claim C7 is false as stated: with retrieve and upload succeeding, a
failing `os.remove` does *not* leave the outcome unchanged — the uncaught
exception ends the run right after the first file (the second queued file is
never transferred) instead of the error-free two-file outcome. -/
theorem c7_cleanup_failure_cex :
    transferLoop cexCleanupEnv "zip_daily_files/"
        ["L2_20200101.zip", "L2_20200102.zip"] []
      = ([("zip_daily_files/L2_20200101.zip", [2])],
         some (TransferError.removeFailed "L2_20200101.zip"))
    ∧ decide ((transferLoop cexCleanupEnv "zip_daily_files/"
        ["L2_20200101.zip", "L2_20200102.zip"] []).2 = none) = false := by
  refine ⟨by decide, by decide⟩

/-- Claim C7 (amended): when a file's retrieve and upload succeed but the
deletion of the transient local copy fails, the error propagates and ends the
run — no later file is processed — while that file's uploaded object does
remain staged. -/
theorem c7_cleanup_failure_propagates
    (env : FtpEnv) (in_folder f : String) (rest : List String)
    (s3 : List (String × Bytes)) (b : Bytes)
    (h1 : env.retrieve f = some b) (h2 : env.uploadOk f = true)
    (h3 : env.removeOk f = false) :
    transferLoop env in_folder (f :: rest) s3
      = (s3 ++ [(in_folder ++ f, b)], some (TransferError.removeFailed f)) := by
  simp [transferLoop, h1, h2, h3]

/-- Witness for C7 (amended) on a concrete two-file queue. -/
theorem c7_cleanup_failure_propagates_wit :
    transferLoop cexCleanupEnv "zip_daily_files/"
        ("L2_20200101.zip" :: ["L2_20200102.zip"]) []
      = ([("zip_daily_files/L2_20200101.zip", [2])],
         some (TransferError.removeFailed "L2_20200101.zip")) :=
  c7_cleanup_failure_propagates cexCleanupEnv "zip_daily_files/" "L2_20200101.zip"
    ["L2_20200102.zip"] [] [2] rfl rfl rfl

/-! Section: claim C1 — corrupt archives in the expand stage -/

/-- Bytes `[0]` are a corrupt archive; any other bytes parse as an archive
with the single member `options_a.txt` holding bytes `[7]`. -/
def cexParseZip : Bytes → Option ZipMembers := fun b =>
  if b == [0] then none else some [("options_a.txt", [7])]

/-- The staged object `zip_daily_files/X.zip` holds the corrupt bytes `[0]`;
every other key holds the valid bytes `[1]`. -/
def cexGetObject : String → Bytes := fun k =>
  if k == "zip_daily_files/X.zip" then [0] else [1]

/-- Claim C1 is false as stated: with corrupt archive `X.zip` queued before
valid archive `Y.zip`, the uncaught `BadZipFile` ends the whole loop — `Y.zip`
is never expanded and its member is not published, rather than `X.zip` merely
being skipped. -/
theorem c1_corrupt_not_isolated_cex :
    unzipLoop cexParseZip cexGetObject "zip_daily_files/" "unzip_daily_files/"
        ["X.zip", "Y.zip"] []
      = ([], some (UnzipError.badZipFile "X.zip"))
    ∧ decide (("unzip_daily_files/options_a.txt", ([7] : Bytes))
        ∈ (unzipLoop cexParseZip cexGetObject "zip_daily_files/"
            "unzip_daily_files/" ["X.zip", "Y.zip"] []).1) = false := by
  refine ⟨by decide, by decide⟩

/-- Claim C1 (amended): a corrupt archive ends the expand stage at that
archive — the members of archives expanded before it in the queue remain
published, the loop result carries the `BadZipFile` error for it, and neither
it nor any archive after it in the queue publishes anything. -/
theorem c1_corrupt_archive_aborts_rest
    (parseZip : Bytes → Option ZipMembers) (getObject : String → Bytes)
    (in_zipfolder in_unzipfolder : String) (pre : List String) (x : String)
    (post : List String) (published : List (String × Bytes))
    (hpre : ∀ z ∈ pre, (parseZip (getObject (in_zipfolder ++ z))).isSome = true)
    (hx : parseZip (getObject (in_zipfolder ++ x)) = none) :
    unzipLoop parseZip getObject in_zipfolder in_unzipfolder (pre ++ x :: post)
        published
      = (published ++ (pre.map (fun z =>
            publishMembers in_unzipfolder
              ((parseZip (getObject (in_zipfolder ++ z))).getD []))).flatten,
         some (UnzipError.badZipFile x)) := by
  induction pre generalizing published with
  | nil => simp [unzipLoop, hx]
  | cons z rest ih =>
    obtain ⟨ms, hms⟩ :=
      Option.isSome_iff_exists.mp (hpre z (List.mem_cons_self z rest))
    have ih' := ih (published ++ publishMembers in_unzipfolder ms)
        (fun z' hz' => hpre z' (List.mem_cons_of_mem z hz'))
    simp only [List.cons_append, unzipLoop, hms, List.append_eq]
    rw [ih']
    simp [hms, List.append_assoc]

/-- Witness for C1 (amended): with valid `Y.zip` queued before corrupt
`X.zip`, the member of `Y.zip` is published and the loop ends at `X.zip`. -/
theorem c1_corrupt_archive_aborts_rest_wit :
    unzipLoop cexParseZip cexGetObject "zip_daily_files/" "unzip_daily_files/"
        (["Y.zip"] ++ "X.zip" :: []) []
      = ([("unzip_daily_files/options_a.txt", [7])],
         some (UnzipError.badZipFile "X.zip")) :=
  (c1_corrupt_archive_aborts_rest cexParseZip cexGetObject "zip_daily_files/"
      "unzip_daily_files/" ["Y.zip"] "X.zip" [] [] (by decide) (by decide)).trans
    (by decide)

/-! Section: claim C8 — expanding one valid archive -/

/-- Claim C8 (amended): expanding one valid archive uploads exactly one object
per member, in the archive's internal member order, each under the member's
own name prefixed only by the publish folder — and, *provided the member names
are pairwise distinct*, with content equal to that member's decompressed
bytes. (Members are reopened by name, so under duplicate names every upload
carries the bytes of the archive's last member with that name — see the
counterexample.) -/
theorem c8_expand_single_archive
    (parseZip : Bytes → Option ZipMembers) (getObject : String → Bytes)
    (in_zipfolder in_unzipfolder : String) (z : String)
    (published : List (String × Bytes)) (members : ZipMembers)
    (hz : parseZip (getObject (in_zipfolder ++ z)) = some members)
    (hnodup : (members.map Prod.fst).Nodup) :
    unzipLoop parseZip getObject in_zipfolder in_unzipfolder [z] published
      = (published ++ members.map (fun m => (in_unzipfolder ++ m.1, m.2)), none) := by
  simp only [unzipLoop, hz]
  rw [publishMembers_of_nodup in_unzipfolder members hnodup]

/-- A valid archive with two members that share the name `options_a.txt`,
holding bytes `[1]` and `[2]` respectively. -/
def dupMembers : ZipMembers := [("options_a.txt", [1]), ("options_a.txt", [2])]

/-- Every staged object parses as the duplicate-name archive. -/
def dupParseZip : Bytes → Option ZipMembers := fun _ => some dupMembers

/-- Claim C8 is false as stated: a valid archive with two members both named
`options_a.txt` (bytes `[1]` and `[2]`) publishes the last member's bytes
`[2]` for *both* uploads — `z.open(each_unzip_filename)` reopens members by
name — so the first member's decompressed bytes `[1]` are never published and
the published contents do not match the members pairwise. -/
theorem c8_expand_by_name_cex :
    (unzipLoop dupParseZip (fun _ => []) "zip_daily_files/" "unzip_daily_files/"
        ["Z.zip"] []).1
      = [("unzip_daily_files/options_a.txt", [2]),
         ("unzip_daily_files/options_a.txt", [2])]
    ∧ decide ((unzipLoop dupParseZip (fun _ => []) "zip_daily_files/"
          "unzip_daily_files/" ["Z.zip"] []).1
        = dupMembers.map (fun m => ("unzip_daily_files/" ++ m.1, m.2))) = false := by
  refine ⟨by decide, by decide⟩

/-- Every staged object parses as the scenario-B archive with members
`options_a.txt` and `options_b.txt`. -/
def scenarioBParseZip : Bytes → Option ZipMembers :=
  fun _ => some [("options_a.txt", [10]), ("options_b.txt", [20])]

/-- Witness for C8 (amended), the end-to-end scenario B: an archive with the
two members `options_a.txt` and `options_b.txt` yields exactly those two
published objects with matching bytes. -/
theorem c8_expand_single_archive_wit :
    unzipLoop scenarioBParseZip (fun _ => []) "zip_daily_files/"
        "unzip_daily_files/" ["L2_20200115.zip"] []
      = ([("unzip_daily_files/options_a.txt", [10]),
          ("unzip_daily_files/options_b.txt", [20])], none) :=
  (c8_expand_single_archive scenarioBParseZip (fun _ => []) "zip_daily_files/"
      "unzip_daily_files/" "L2_20200115.zip" []
      [("options_a.txt", [10]), ("options_b.txt", [20])] rfl (by decide)).trans
    (by decide)

/-! Section: claim C10 — the per-key name shortening -/

/-- A character absent from a string is in particular not its last character. -/
theorem pyEndsWith_eq_false_of_not_mem (x : String) (c : Char) (h : c ∉ x.data) :
    pyEndsWith x c = false := by
  unfold pyEndsWith
  cases hl : x.data.getLast? with
  | none => rfl
  | some d =>
    have hd : d ∈ x.data := by
      obtain ⟨hne, he⟩ := List.mem_getLast?_eq_getLast (Option.mem_def.mpr hl)
      have hm := List.getLast_mem hne
      rwa [← he] at hm
    have hne : ¬ d = c := fun he => h (he ▸ hd)
    simp [hne]

/-- Claim C10: for every listed key, `get_s3_file_names` keeps the second
`'/'`-separated segment — the prefix-stripped name exactly when the key is
nested one folder deep; a key without `'/'` raises `IndexError`; a key nested
two or more folders deep yields the intermediate folder name (whatever the
trailing part is); and the split is applied even when no folder filter
argument is given. -/
theorem c10_shortName_second_segment :
    (∀ a b : String, '/' ∉ a.data → '/' ∉ b.data →
        shortName (a ++ "/" ++ b) = Except.ok b)
    ∧ (∀ x : String, '/' ∉ x.data →
        shortName x = Except.error PyError.indexError)
    ∧ (∀ a b c : String, '/' ∉ a.data → '/' ∉ b.data →
        shortName (a ++ "/" ++ b ++ "/" ++ c) = Except.ok b)
    ∧ (∀ x : String, '/' ∉ x.data →
        get_s3_file_names (some [x]) none = Except.error PyError.indexError) := by
  have h2 : ∀ x : String, '/' ∉ x.data →
      shortName x = Except.error PyError.indexError := by
    intro x hx
    unfold shortName pySplit
    rw [pySplitCore_of_not_mem '/' x.data hx]
    rfl
  refine ⟨?_, h2, ?_, ?_⟩
  · intro a b ha hb
    unfold shortName pySplit
    have hdata : (a ++ "/" ++ b).data = a.data ++ '/' :: b.data := by
      show (a.data ++ "/".data ++ b.data : List Char) = _
      simp only [List.append_assoc]
      rfl
    rw [hdata, pySplitCore_append '/' a.data b.data ha,
      pySplitCore_of_not_mem '/' b.data hb]
    rfl
  · intro a b c ha hb
    unfold shortName pySplit
    have hdata : (a ++ "/" ++ b ++ "/" ++ c).data
        = a.data ++ '/' :: (b.data ++ '/' :: c.data) := by
      show (a.data ++ "/".data ++ b.data ++ "/".data ++ c.data : List Char) = _
      simp only [List.append_assoc]
      rfl
    rw [hdata, pySplitCore_append '/' a.data _ ha,
      pySplitCore_append '/' b.data _ hb]
    rfl
  · intro x hx
    have hend : pyEndsWith x '/' = false := pyEndsWith_eq_false_of_not_mem x '/' hx
    show ([x].filter (fun y => !(pyEndsWith y '/'))).mapM shortName
        = Except.error PyError.indexError
    rw [List.filter_cons, List.filter_nil]
    simp only [hend, Bool.not_false, if_true]
    rw [List.mapM_cons, h2 x hx]
    rfl

/-- Witness for C10 at concrete keys of each shape. -/
theorem c10_shortName_second_segment_wit :
    shortName ("zip_daily_files" ++ "/" ++ "L2_20200115.zip")
        = Except.ok "L2_20200115.zip"
    ∧ shortName "orphan.zip" = Except.error PyError.indexError
    ∧ shortName ("zip_daily_files" ++ "/" ++ "sub" ++ "/" ++ "L2_20200115.zip")
        = Except.ok "sub"
    ∧ get_s3_file_names (some ["orphan.zip"]) none
        = Except.error PyError.indexError :=
  ⟨c10_shortName_second_segment.1 "zip_daily_files" "L2_20200115.zip"
      (by decide) (by decide),
   c10_shortName_second_segment.2.1 "orphan.zip" (by decide),
   c10_shortName_second_segment.2.2.1 "zip_daily_files" "sub" "L2_20200115.zip"
      (by decide) (by decide),
   c10_shortName_second_segment.2.2.2 "orphan.zip" (by decide)⟩

end DeltaNeutral
